import Mathlib

/-!
Verification of the project configuration store of `@profullstack/stripe-config`
(`src/core/config-manager.ts`).  The store owns a single JSON document with a
list of named project records and an optional default-project pointer.

The embedding is pure: the nondeterministic ingredients of the TypeScript code
(`randomUUID()`, `new Date().toISOString()`, filesystem reads, `JSON.parse`)
become explicit parameters.  Each store operation is a function from the loaded
document (plus those parameters) to `Except ConfigError`, mirroring the
load / mutate / save-on-success structure of the source: a thrown `ConfigError`
happens before `saveConfig`, so the error branch carries no new document.
-/

set_option autoImplicit false

namespace StripeConf

/-- `class ConfigError extends Error` from `src/core/types` (re-exported through
`stripe-client.ts`): the single error kind of the store, carrying a message. -/
structure ConfigError where
  message : String
deriving Repr, DecidableEq

/-- The `'test' | 'live'` union type of the `environment` field. -/
inductive Environment where
  | test
  | live
deriving Repr, DecidableEq

/-- `interface ProjectConfig`: one named credential bundle.  `webhookSecret?`
is optional, hence `Option`.  Timestamps are ISO-8601 strings. -/
structure ProjectConfig where
  id : String
  name : String
  environment : Environment
  publishableKey : String
  secretKey : String
  webhookSecret : Option String
  defaultCurrency : String
  createdAt : String
  updatedAt : String
deriving Repr, DecidableEq

/-- `interface Config`: the root persisted structure.  `defaultProject?` is
optional, hence `Option`. -/
structure Config where
  version : String
  projects : List ProjectConfig
  defaultProject : Option String
deriving Repr, DecidableEq

/-- `private readonly CONFIG_VERSION = '1.0.0'` of `ConfigManager`. -/
def CONFIG_VERSION : String := "1.0.0"

/-- `Array.prototype.findIndex`: index of the first element satisfying the
predicate, with JS's `-1` sentinel rendered as `none`. -/
def findIndex? {α : Type} (p : α → Bool) : List α → Option Nat
  | [] => none
  | x :: xs => if p x then some 0 else (findIndex? p xs).map (· + 1)

/-- `Omit<ProjectConfig, 'id' | 'createdAt' | 'updatedAt'>`: the candidate
record passed to `addProject`. -/
structure ProjectInput where
  name : String
  environment : Environment
  publishableKey : String
  secretKey : String
  webhookSecret : Option String
  defaultCurrency : String
deriving Repr, DecidableEq

/-- `Partial<Omit<ProjectConfig, 'id' | 'name' | 'createdAt'>>`: the update
set passed to `updateProject`.  The outer `Option` records whether the key is
present in the partial object; note that `updatedAt` IS part of this type in
the source (only `id`, `name`, `createdAt` are omitted). -/
structure ProjectUpdates where
  environment : Option Environment := none
  publishableKey : Option String := none
  secretKey : Option String := none
  webhookSecret : Option (Option String) := none
  defaultCurrency : Option String := none
  updatedAt : Option String := none
deriving Repr, DecidableEq

/-- The spread `{ ...config.projects[projectIndex], ...updates, updatedAt: now }`
of `updateProject`: keys present in `updates` override the existing record,
then `updatedAt` is overridden with the current time. -/
def mergeProject (p : ProjectConfig) (u : ProjectUpdates) (now : String) : ProjectConfig :=
  { p with
    environment := u.environment.getD p.environment
    publishableKey := u.publishableKey.getD p.publishableKey
    secretKey := u.secretKey.getD p.secretKey
    webhookSecret := u.webhookSecret.getD p.webhookSecret
    defaultCurrency := u.defaultCurrency.getD p.defaultCurrency
    updatedAt := now }

/-- `ConfigManager.addProject`: rejects a duplicate `name`, otherwise builds
the record with a generated id and `createdAt = updatedAt = now`, pushes it,
and sets it as default iff it is the first record (`projects.length === 1`
after the push).  `freshId` stands for `randomUUID()` and `now` for
`new Date().toISOString()`. -/
def addProject (config : Config) (projectInput : ProjectInput) (freshId now : String) :
    Except ConfigError (Config × ProjectConfig) :=
  match config.projects.find? (fun p => p.name == projectInput.name) with
  | some _ =>
      .error ⟨"Project with name \"" ++ projectInput.name ++ "\" already exists"⟩
  | none =>
      let project : ProjectConfig :=
        { id := freshId
          name := projectInput.name
          environment := projectInput.environment
          publishableKey := projectInput.publishableKey
          secretKey := projectInput.secretKey
          webhookSecret := projectInput.webhookSecret
          defaultCurrency := projectInput.defaultCurrency
          createdAt := now
          updatedAt := now }
      let projects := config.projects ++ [project]
      let defaultProject :=
        if projects.length == 1 then some project.name else config.defaultProject
      .ok ({ config with projects := projects, defaultProject := defaultProject }, project)

/-- `ConfigManager.getProject`: first record with the given name, else
`ConfigError`. -/
def getProject (config : Config) (name : String) : Except ConfigError ProjectConfig :=
  match config.projects.find? (fun p => p.name == name) with
  | some project => .ok project
  | none => .error ⟨"Project \"" ++ name ++ "\" not found"⟩

/-- `ConfigManager.listProjects`: all records in stored order. -/
def listProjects (config : Config) : List ProjectConfig :=
  config.projects

/-- `ConfigManager.updateProject`: locates the record by `name` via
`findIndex` (`-1` becomes `none`), merges the update set over it and stamps
`updatedAt := now`, writing the merged record back at the same index. -/
def updateProject (config : Config) (name : String) (updates : ProjectUpdates)
    (now : String) : Except ConfigError (Config × ProjectConfig) :=
  match findIndex? (fun p => p.name == name) config.projects with
  | none => .error ⟨"Project \"" ++ name ++ "\" not found"⟩
  | some projectIndex =>
      match config.projects[projectIndex]? with
      | none => .error ⟨"Project \"" ++ name ++ "\" not found"⟩
      | some existing =>
          let updatedProject := mergeProject existing updates now
          .ok ({ config with projects := config.projects.set projectIndex updatedProject },
               updatedProject)

/-- `ConfigManager.deleteProject`: locates the record by `name` via
`findIndex`, splices it out, and deletes `defaultProject` iff it strictly
equals the removed name (`config.defaultProject === name`). -/
def deleteProject (config : Config) (name : String) : Except ConfigError Config :=
  match findIndex? (fun p => p.name == name) config.projects with
  | none => .error ⟨"Project \"" ++ name ++ "\" not found"⟩
  | some projectIndex =>
      let projects := config.projects.eraseIdx projectIndex
      let defaultProject :=
        if config.defaultProject == some name then none else config.defaultProject
      .ok { config with projects := projects, defaultProject := defaultProject }

/-- `ConfigManager.setDefaultProject`: verifies a record with the name exists,
then points `defaultProject` at it. -/
def setDefaultProject (config : Config) (name : String) : Except ConfigError Config :=
  match config.projects.find? (fun p => p.name == name) with
  | some _ => .ok { config with defaultProject := some name }
  | none => .error ⟨"Project \"" ++ name ++ "\" not found"⟩

/-- `ConfigManager.getDefaultProject`: `if (!config.defaultProject)` is a JS
falsy test, true both when the field is absent and when it is the empty
string; otherwise the pointer is resolved through `getProject`. -/
def getDefaultProject (config : Config) : Except ConfigError ProjectConfig :=
  match config.defaultProject with
  | none => .error ⟨"No default project set. Use setDefaultProject() to set one."⟩
  | some name =>
      if name = "" then
        .error ⟨"No default project set. Use setDefaultProject() to set one."⟩
      else getProject config name

/-! ### The persisted document across one operation

Every mutating operation is `loadConfig` / mutate / `saveConfig`; a thrown
`ConfigError` occurs before `saveConfig`, so on failure the stored document is
untouched.  `runX stored args` is the stored document after invoking `X` on a
store whose persisted document parses to `stored`. -/

/-- Persisted document after `addProject` (unchanged when it throws). -/
def runAddProject (stored : Config) (projectInput : ProjectInput)
    (freshId now : String) : Config :=
  match addProject stored projectInput freshId now with
  | .ok (c, _) => c
  | .error _ => stored

/-- Persisted document after `updateProject` (unchanged when it throws). -/
def runUpdateProject (stored : Config) (name : String) (updates : ProjectUpdates)
    (now : String) : Config :=
  match updateProject stored name updates now with
  | .ok (c, _) => c
  | .error _ => stored

/-- Persisted document after `deleteProject` (unchanged when it throws). -/
def runDeleteProject (stored : Config) (name : String) : Config :=
  match deleteProject stored name with
  | .ok c => c
  | .error _ => stored

/-- Persisted document after `setDefaultProject` (unchanged when it throws). -/
def runSetDefaultProject (stored : Config) (name : String) : Config :=
  match setDefaultProject stored name with
  | .ok c => c
  | .error _ => stored

/-! ### Load and save (`ConfigManager.loadConfig` / `ConfigManager.saveConfig`)

`loadConfig` does `fs.readFile` then `JSON.parse(data) as Config`; the `catch`
distinguishes `ENOENT` (missing file → empty default document), `SyntaxError`
(invalid JSON → `ConfigError` naming the path) and anything else (→
`ConfigError` wrapping the cause's message).  The filesystem outcome and the
external `JSON.parse` are parameters of the embedding: `jsonParse data = none`
models `JSON.parse` throwing `SyntaxError` on `data`.  The `as Config` cast
performs no validation, so a successful parse is returned as-is. -/

/-- Outcome of `fs.readFile(configPath, 'utf-8')`. -/
inductive ReadOutcome where
  | success (data : String)
  | enoent
  | failure (message : String)
deriving Repr, DecidableEq

/-- `ConfigManager.loadConfig`, with the filesystem read and `JSON.parse`
supplied as parameters. -/
def loadConfig (jsonParse : String → Option Config) (configPath : String)
    (r : ReadOutcome) : Except ConfigError Config :=
  match r with
  | .success data =>
      match jsonParse data with
      | some config => .ok config
      | none => .error ⟨"Invalid JSON in config file: " ++ configPath⟩
  | .enoent => .ok { version := CONFIG_VERSION, projects := [], defaultProject := none }
  | .failure msg => .error ⟨"Failed to load config: " ++ msg⟩

/-! ### Serialization (`JSON.stringify(config, null, 2)`)

`saveConfig` writes `JSON.stringify(config, null, 2)`.  The serializer below
reproduces that output for our document shape: two-space indentation, keys in
interface declaration order, optional keys (`webhookSecret`,
`defaultProject`) omitted when absent, strings escaped as `JSON.stringify`
escapes them. -/

/-- Lower-case hex digit, as `JSON.stringify` emits in `\u00XX` escapes. -/
def hexDigit (n : Nat) : Char :=
  if n < 10 then Char.ofNat (48 + n) else Char.ofNat (87 + n)

/-- Escape one character the way `JSON.stringify` escapes it inside a string
literal. -/
def escapeChar (c : Char) : String :=
  if c = '"' then "\\\""
  else if c = '\\' then "\\\\"
  else if c.toNat = 8 then "\\b"
  else if c.toNat = 9 then "\\t"
  else if c.toNat = 10 then "\\n"
  else if c.toNat = 12 then "\\f"
  else if c.toNat = 13 then "\\r"
  else if c.toNat < 32 then
    "\\u00" ++ String.mk [hexDigit (c.toNat / 16), hexDigit (c.toNat % 16)]
  else String.mk [c]

/-- A JSON string literal for `s`. -/
def jsonStringLit (s : String) : String :=
  "\"" ++ String.join (s.toList.map escapeChar) ++ "\""

/-- The JSON value of the `environment` union member. -/
def envString : Environment → String
  | .test => "test"
  | .live => "live"

/-- One `key: value` member line (without indentation). -/
def jsonMember (key value : String) : String :=
  jsonStringLit key ++ ": " ++ value

/-- `JSON.stringify(p, null, 2)` for a project record nested at depth 2
(inside the `projects` array of the root object). -/
def serializeProject (p : ProjectConfig) : String :=
  let fields : List String :=
    [jsonMember "id" (jsonStringLit p.id),
     jsonMember "name" (jsonStringLit p.name),
     jsonMember "environment" (jsonStringLit (envString p.environment)),
     jsonMember "publishableKey" (jsonStringLit p.publishableKey),
     jsonMember "secretKey" (jsonStringLit p.secretKey)]
    ++ (match p.webhookSecret with
        | some w => [jsonMember "webhookSecret" (jsonStringLit w)]
        | none => [])
    ++ [jsonMember "defaultCurrency" (jsonStringLit p.defaultCurrency),
        jsonMember "createdAt" (jsonStringLit p.createdAt),
        jsonMember "updatedAt" (jsonStringLit p.updatedAt)]
  "\x7b\n" ++ String.intercalate ",\n" (fields.map (fun f => "      " ++ f))
    ++ "\n    \x7d"

/-- `JSON.stringify(config, null, 2)`: the exact bytes `saveConfig` writes. -/
def serializeConfig (c : Config) : String :=
  let projectsJson : String :=
    match c.projects with
    | [] => "[]"
    | ps =>
        "[\n" ++ String.intercalate ",\n" (ps.map (fun p => "    " ++ serializeProject p))
          ++ "\n  ]"
  let fields : List String :=
    [jsonMember "version" (jsonStringLit c.version),
     jsonMember "projects" projectsJson]
    ++ (match c.defaultProject with
        | some d => [jsonMember "defaultProject" (jsonStringLit d)]
        | none => [])
  "\x7b\n" ++ String.intercalate ",\n" (fields.map (fun f => "  " ++ f)) ++ "\n\x7d"

/-- `ConfigManager.saveConfig`: the content written to the config file
(directory creation and permission bits are filesystem effects outside the
document model). -/
def saveConfig (config : Config) : String :=
  serializeConfig config

/-- One load-then-save round trip on a file holding `fileData`: the bytes on
disk afterwards (or the load error). -/
def loadThenSave (jsonParse : String → Option Config) (configPath fileData : String) :
    Except ConfigError String :=
  match loadConfig jsonParse configPath (.success fileData) with
  | .ok config => .ok (saveConfig config)
  | .error e => .error e

/-! ### Document invariants (spec §3) -/

/-- `name` values are pairwise distinct within `projects`. -/
def NamesUnique (c : Config) : Prop :=
  (c.projects.map ProjectConfig.name).Nodup

/-- `defaultProject`, when present, names some record in `projects`. -/
def DefaultValid (c : Config) : Prop :=
  ∀ d, c.defaultProject = some d → ∃ p ∈ c.projects, p.name = d

/-- Both document invariants together. -/
def Invariant (c : Config) : Prop :=
  NamesUnique c ∧ DefaultValid c

/-- The record `addProject` builds from its input, `randomUUID()` and the
current time (the object literal at `config-manager.ts:115`). -/
def builtProject (input : ProjectInput) (freshId now : String) : ProjectConfig :=
  { id := freshId, name := input.name, environment := input.environment,
    publishableKey := input.publishableKey, secretKey := input.secretKey,
    webhookSecret := input.webhookSecret, defaultCurrency := input.defaultCurrency,
    createdAt := now, updatedAt := now }

/-! ### Concrete documents, used by witnesses and counterexamples -/

/-- The empty document, as `loadConfig` returns it for a missing file. -/
def emptyConfig : Config :=
  { version := CONFIG_VERSION, projects := [], defaultProject := none }

/-- A candidate record whose `name` is the empty string. -/
def inputEmptyName : ProjectInput :=
  { name := "", environment := .test, publishableKey := "pk_test_x",
    secretKey := "sk_test_x", webhookSecret := none, defaultCurrency := "usd" }

/-- A candidate record named `acme` (spec §8 scenario). -/
def inputAcme : ProjectInput :=
  { name := "acme", environment := .test, publishableKey := "pk_test_x",
    secretKey := "sk_test_x", webhookSecret := none, defaultCurrency := "usd" }

/-- A stored record named `acme`. -/
def projAcme : ProjectConfig :=
  { id := "id-1", name := "acme", environment := .test, publishableKey := "pk_test_x",
    secretKey := "sk_test_x", webhookSecret := none, defaultCurrency := "usd",
    createdAt := "2024-01-01T00:00:00.000Z", updatedAt := "2024-01-01T00:00:00.000Z" }

/-- A stored record named `beta`. -/
def projBeta : ProjectConfig :=
  { id := "id-2", name := "beta", environment := .live, publishableKey := "pk_live_y",
    secretKey := "sk_live_y", webhookSecret := some "whsec_y", defaultCurrency := "eur",
    createdAt := "2024-02-01T00:00:00.000Z", updatedAt := "2024-02-01T00:00:00.000Z" }

/-- A document holding `acme` and `beta`, with `acme` as default. -/
def cfgTwo : Config :=
  { version := CONFIG_VERSION, projects := [projAcme, projBeta],
    defaultProject := some "acme" }

/-- A candidate record named `beta`. -/
def inputBeta : ProjectInput :=
  { name := "beta", environment := .live, publishableKey := "pk_live_y",
    secretKey := "sk_live_y", webhookSecret := some "whsec_y", defaultCurrency := "eur" }

/-- A document with one record but no default pointer (the state left by
deleting the default record while others remain). -/
def cfgNoDefault : Config :=
  { version := CONFIG_VERSION, projects := [projAcme], defaultProject := none }

/-- An update set touching only `defaultCurrency` (spec §8 scenario). -/
def updEur : ProjectUpdates :=
  { defaultCurrency := some "eur" }

/-- An update set that carries a stale `updatedAt` value (the type of
`updateProject`'s `updates` admits the key). -/
def updStale : ProjectUpdates :=
  { updatedAt := some "1999-01-01T00:00:00.000Z" }

/-- A syntactically well-formed document violating both invariants: duplicate
`name` values and a `defaultProject` naming no record. -/
def badConfig : Config :=
  { version := CONFIG_VERSION, projects := [projAcme, projAcme],
    defaultProject := some "ghost" }

/-- A stand-in for `JSON.parse` that recognises exactly the serialization of
`cfgTwo`; used to instantiate theorems quantified over the parse function. -/
def parseCfgTwo : String → Option Config :=
  fun data => if data = serializeConfig cfgTwo then some cfgTwo else none

/-- A stand-in for `JSON.parse` whose result is the invariant-violating
document `badConfig`, regardless of the input text. -/
def parseBadConfig : String → Option Config :=
  fun _ => some badConfig

/-! ### Helper lemmas -/

theorem mergeProject_id (p : ProjectConfig) (u : ProjectUpdates) (now : String) :
    (mergeProject p u now).id = p.id := rfl

theorem mergeProject_name (p : ProjectConfig) (u : ProjectUpdates) (now : String) :
    (mergeProject p u now).name = p.name := rfl

theorem mergeProject_createdAt (p : ProjectConfig) (u : ProjectUpdates) (now : String) :
    (mergeProject p u now).createdAt = p.createdAt := rfl

theorem mergeProject_updatedAt (p : ProjectConfig) (u : ProjectUpdates) (now : String) :
    (mergeProject p u now).updatedAt = now := rfl

theorem findIndex?_eq_none_iff {α : Type} (p : α → Bool) (l : List α) :
    findIndex? p l = none ↔ ∀ x ∈ l, ¬ p x := by
  induction l with
  | nil => simp [findIndex?]
  | cons x xs ih =>
      by_cases h : p x
      · simp [findIndex?, h]
      · simp [findIndex?, h, ih]

theorem findIndex?_some {α : Type} {p : α → Bool} {l : List α} {i : Nat}
    (h : findIndex? p l = some i) : ∃ a, l[i]? = some a ∧ p a := by
  induction l generalizing i with
  | nil => simp [findIndex?] at h
  | cons x xs ih =>
      by_cases hx : p x
      · simp [findIndex?, hx] at h
        subst h
        exact ⟨x, by simp, hx⟩
      · simp [findIndex?, hx] at h
        obtain ⟨j, hj, hji⟩ := h
        subst hji
        obtain ⟨a, ha, hpa⟩ := ih hj
        exact ⟨a, by simpa using ha, hpa⟩

theorem find?_of_findIndex? {α : Type} {p : α → Bool} {l : List α} {i : Nat}
    (h : findIndex? p l = some i) : l.find? p = l[i]? := by
  induction l generalizing i with
  | nil => simp [findIndex?] at h
  | cons x xs ih =>
      by_cases hx : p x
      · simp [findIndex?, hx] at h
        subst h
        simp [List.find?_cons_of_pos _ hx]
      · simp [findIndex?, hx] at h
        obtain ⟨j, hj, hji⟩ := h
        subst hji
        simp [List.find?_cons_of_neg _ hx, ih hj]

theorem map_set_of_getElem? {α β : Type} {l : List α} {i : Nat} {a : α} (f : α → β)
    (h : l[i]? = some a) (b : α) (hb : f b = f a) :
    (l.set i b).map f = l.map f := by
  induction l generalizing i with
  | nil => simp at h
  | cons x xs ih =>
      cases i with
      | zero =>
          simp at h
          subst h
          simp [hb]
      | succ j =>
          simp at h
          simp [ih h]

theorem mem_eraseIdx_of_ne {α : Type} {l : List α} {i : Nat} {a b : α}
    (hmem : a ∈ l) (hi : l[i]? = some b) (hne : a ≠ b) : a ∈ l.eraseIdx i := by
  induction l generalizing i with
  | nil => simp at hmem
  | cons x xs ih =>
      cases i with
      | zero =>
          simp at hi
          subst hi
          rcases List.mem_cons.mp hmem with h | h
          · exact absurd h hne
          · simpa [List.eraseIdx] using h
      | succ j =>
          simp at hi
          rcases List.mem_cons.mp hmem with h | h
          · simp [List.eraseIdx, h]
          · simpa [List.eraseIdx] using Or.inr (ih h hi)

theorem getElem?_not_mem_eraseIdx_of_nodup {α : Type} {l : List α} {i : Nat} {a : α}
    (hnd : l.Nodup) (hi : l[i]? = some a) : a ∉ l.eraseIdx i := by
  induction l generalizing i with
  | nil => simp at hi
  | cons x xs ih =>
      have hx := List.nodup_cons.mp hnd
      cases i with
      | zero =>
          simp at hi
          subst hi
          simpa [List.eraseIdx] using hx.1
      | succ j =>
          simp at hi
          intro hmem
          rcases List.mem_cons.mp (by simpa [List.eraseIdx] using hmem) with h | h
          · subst h
            exact hx.1 (List.getElem?_mem hi)
          · exact ih hx.2 hi h

theorem map_eraseIdx {α β : Type} (f : α → β) (l : List α) (i : Nat) :
    (l.eraseIdx i).map f = (l.map f).eraseIdx i := by
  induction l generalizing i with
  | nil => simp
  | cons x xs ih => cases i <;> simp [List.eraseIdx, ih]

theorem addProject_eq_ok {config : Config} {input : ProjectInput} {freshId now : String}
    (hfind : config.projects.find? (fun p => p.name == input.name) = none) :
    addProject config input freshId now =
      .ok ({ version := config.version,
             projects := config.projects ++ [builtProject input freshId now],
             defaultProject :=
               if (config.projects ++ [builtProject input freshId now]).length == 1 then
                 some input.name
               else config.defaultProject },
           builtProject input freshId now) := by
  simp only [addProject, hfind, builtProject]

theorem addProject_eq_error_of_find? {config : Config} {input : ProjectInput}
    {freshId now : String} {q : ProjectConfig}
    (hfind : config.projects.find? (fun p => p.name == input.name) = some q) :
    addProject config input freshId now =
      .error ⟨"Project with name \"" ++ input.name ++ "\" already exists"⟩ := by
  simp only [addProject, hfind]

theorem setDefaultProject_eq_ok {config : Config} {nm : String} {q : ProjectConfig}
    (hfind : config.projects.find? (fun p => p.name == nm) = some q) :
    setDefaultProject config nm =
      .ok { version := config.version, projects := config.projects,
            defaultProject := some nm } := by
  simp only [setDefaultProject, hfind]

theorem setDefaultProject_eq_error {config : Config} {nm : String}
    (hfind : config.projects.find? (fun p => p.name == nm) = none) :
    setDefaultProject config nm = .error ⟨"Project \"" ++ nm ++ "\" not found"⟩ := by
  simp only [setDefaultProject, hfind]

theorem runAddProject_ok {config c2 : Config} {input : ProjectInput}
    {freshId now : String} {proj : ProjectConfig}
    (h : addProject config input freshId now = .ok (c2, proj)) :
    runAddProject config input freshId now = c2 := by
  unfold runAddProject
  rw [h]

theorem runAddProject_error {config : Config} {input : ProjectInput}
    {freshId now : String} {e : ConfigError}
    (h : addProject config input freshId now = .error e) :
    runAddProject config input freshId now = config := by
  unfold runAddProject
  rw [h]

theorem runUpdateProject_ok {config c2 : Config} {nm : String} {u : ProjectUpdates}
    {now : String} {proj : ProjectConfig}
    (h : updateProject config nm u now = .ok (c2, proj)) :
    runUpdateProject config nm u now = c2 := by
  unfold runUpdateProject
  rw [h]

theorem runUpdateProject_error {config : Config} {nm : String} {u : ProjectUpdates}
    {now : String} {e : ConfigError}
    (h : updateProject config nm u now = .error e) :
    runUpdateProject config nm u now = config := by
  unfold runUpdateProject
  rw [h]

theorem runDeleteProject_ok {config c2 : Config} {nm : String}
    (h : deleteProject config nm = .ok c2) :
    runDeleteProject config nm = c2 := by
  unfold runDeleteProject
  rw [h]

theorem runDeleteProject_error {config : Config} {nm : String} {e : ConfigError}
    (h : deleteProject config nm = .error e) :
    runDeleteProject config nm = config := by
  unfold runDeleteProject
  rw [h]

theorem runSetDefaultProject_ok {config c2 : Config} {nm : String}
    (h : setDefaultProject config nm = .ok c2) :
    runSetDefaultProject config nm = c2 := by
  unfold runSetDefaultProject
  rw [h]

theorem runSetDefaultProject_error {config : Config} {nm : String} {e : ConfigError}
    (h : setDefaultProject config nm = .error e) :
    runSetDefaultProject config nm = config := by
  unfold runSetDefaultProject
  rw [h]

theorem addProject_eq_error {config : Config} {input : ProjectInput} {freshId now : String}
    (h : ∃ p ∈ config.projects, p.name = input.name) :
    ∃ e, addProject config input freshId now = .error e := by
  obtain ⟨p, hp, hname⟩ := h
  have hsome : (config.projects.find? (fun q => q.name == input.name)).isSome := by
    rw [List.find?_isSome]
    exact ⟨p, hp, by simp [hname]⟩
  obtain ⟨q, hq⟩ := Option.isSome_iff_exists.mp hsome
  exact ⟨⟨"Project with name \"" ++ input.name ++ "\" already exists"⟩,
    by simp only [addProject, hq]⟩

/-- C1: for any starting document with no record named `input.name`,
`addProject` returns a record copying the candidate's fields with a fresh id
and `createdAt = updatedAt = now`, and `listProjects` afterwards contains
exactly one record with that name (the returned one); with the name already
taken, `addProject` fails with a `ConfigError`. -/
theorem C1_addProject_correct (config : Config) (input : ProjectInput)
    (freshId now : String) :
    ((∀ p ∈ config.projects, p.name ≠ input.name) →
      ∃ cfg2 proj,
        addProject config input freshId now = .ok (cfg2, proj) ∧
        proj.id = freshId ∧ proj.createdAt = now ∧ proj.updatedAt = now ∧
        proj.name = input.name ∧ proj.environment = input.environment ∧
        proj.publishableKey = input.publishableKey ∧
        proj.secretKey = input.secretKey ∧
        proj.webhookSecret = input.webhookSecret ∧
        proj.defaultCurrency = input.defaultCurrency ∧
        (listProjects cfg2).countP (fun p => p.name == input.name) = 1 ∧
        proj ∈ listProjects cfg2) ∧
    ((∃ p ∈ config.projects, p.name = input.name) →
      ∃ e, addProject config input freshId now = .error e) := by
  constructor
  · intro hnone
    have hfind : config.projects.find? (fun p => p.name == input.name) = none := by
      rw [List.find?_eq_none]
      intro x hx
      simpa using hnone x hx
    refine ⟨_, _, addProject_eq_ok hfind, rfl, rfl, rfl, rfl, rfl, rfl, rfl, rfl, rfl,
      ?_, ?_⟩
    · have h0 : config.projects.countP (fun p => p.name == input.name) = 0 := by
        rw [List.countP_eq_zero]
        intro a ha
        simpa using hnone a ha
      simp [listProjects, h0, builtProject]
    · simp [listProjects]
  · exact addProject_eq_error

/-- Witness for C1 at a concrete document and candidate. -/
theorem C1_addProject_correct_witness :
    ∃ cfg2 proj,
      addProject emptyConfig inputAcme "id-1" "2024-01-01T00:00:00.000Z" =
        .ok (cfg2, proj) ∧
      proj.id = "id-1" ∧ proj.createdAt = "2024-01-01T00:00:00.000Z" ∧
      proj.updatedAt = "2024-01-01T00:00:00.000Z" ∧
      proj.name = inputAcme.name ∧ proj.environment = inputAcme.environment ∧
      proj.publishableKey = inputAcme.publishableKey ∧
      proj.secretKey = inputAcme.secretKey ∧
      proj.webhookSecret = inputAcme.webhookSecret ∧
      proj.defaultCurrency = inputAcme.defaultCurrency ∧
      (listProjects cfg2).countP (fun p => p.name == inputAcme.name) = 1 ∧
      proj ∈ listProjects cfg2 :=
  (C1_addProject_correct emptyConfig inputAcme "id-1" "2024-01-01T00:00:00.000Z").1
    (by intro p hp; simp [emptyConfig] at hp)

theorem runAddProject_defaultProject_frame (config : Config) (input : ProjectInput)
    (freshId now : String) (h : config.projects ≠ []) :
    (runAddProject config input freshId now).defaultProject = config.defaultProject := by
  unfold runAddProject
  cases hfind : config.projects.find? (fun p => p.name == input.name) with
  | some q => simp only [addProject, hfind]
  | none =>
      rw [addProject_eq_ok hfind]
      have hlen : ((config.projects ++ [builtProject input freshId now]).length == 1)
          = false := by
        rw [beq_eq_false_iff_ne]
        have hne : config.projects.length ≠ 0 := by
          intro h0
          exact h (List.length_eq_zero.mp h0)
        simp only [List.length_append, List.length_cons, List.length_nil]
        omega
      simp only [hlen, Bool.false_eq_true, if_false]

/-- C9: `addProject` on a document whose projects list is non-empty leaves
`defaultProject` exactly as it was; in particular when `defaultProject` is
absent, no default is set and `getDefaultProject` still fails. -/
theorem C9_addProject_frame (config : Config) (input : ProjectInput)
    (freshId now : String) (h : config.projects ≠ []) :
    (runAddProject config input freshId now).defaultProject = config.defaultProject ∧
    (config.defaultProject = none →
      ∃ e, getDefaultProject (runAddProject config input freshId now) = .error e) := by
  have hframe := runAddProject_defaultProject_frame config input freshId now h
  refine ⟨hframe, ?_⟩
  intro hnone
  have hd : (runAddProject config input freshId now).defaultProject = none := by
    rw [hframe, hnone]
  exact ⟨⟨"No default project set. Use setDefaultProject() to set one."⟩,
    by simp only [getDefaultProject, hd]⟩

/-- Witness for C9: a one-record document with no default pointer. -/
theorem C9_addProject_frame_witness :
    (runAddProject cfgNoDefault inputBeta "id-9" "t9").defaultProject =
      cfgNoDefault.defaultProject ∧
    (cfgNoDefault.defaultProject = none →
      ∃ e, getDefaultProject (runAddProject cfgNoDefault inputBeta "id-9" "t9") =
        .error e) :=
  C9_addProject_frame cfgNoDefault inputBeta "id-9" "t9" (by simp [cfgNoDefault])

/-- C5 counterexample: adding a first record named `""` to the empty document
does set `defaultProject := some ""`, yet `getDefaultProject` afterwards
still fails, because `if (!config.defaultProject)` treats the empty string as
"no default" — the claim promises it returns the record. -/
theorem C5_counterexample :
    (runAddProject emptyConfig inputEmptyName "id-0" "t0").defaultProject = some "" ∧
    ∃ e, getDefaultProject (runAddProject emptyConfig inputEmptyName "id-0" "t0") =
      .error e :=
  ⟨rfl, ⟨⟨"No default project set. Use setDefaultProject() to set one."⟩, rfl⟩⟩

/-- C5 (amended): the first record added to an empty document becomes
`defaultProject`, and — provided its name is non-empty — `getDefaultProject`
afterwards returns it; adding to a non-empty document leaves `defaultProject`
unchanged. -/
theorem C5_first_add_becomes_default (config : Config) (input : ProjectInput)
    (freshId now : String) :
    (config.projects = [] →
      ∃ cfg2 proj, addProject config input freshId now = .ok (cfg2, proj) ∧
        cfg2.defaultProject = some input.name ∧
        (input.name ≠ "" → getDefaultProject cfg2 = .ok proj)) ∧
    (config.projects ≠ [] →
      (runAddProject config input freshId now).defaultProject =
        config.defaultProject) := by
  constructor
  · intro hnil
    have hfind : config.projects.find? (fun p => p.name == input.name) = none := by
      rw [hnil]; rfl
    refine ⟨_, _, addProject_eq_ok hfind, ?_, ?_⟩
    · simp [hnil]
    · intro hne
      simp [getDefaultProject, getProject, hnil, hne, builtProject]
  · exact runAddProject_defaultProject_frame config input freshId now

/-- Witness for C5 at the empty document and a concrete candidate. -/
theorem C5_first_add_becomes_default_witness :
    ∃ cfg2 proj, addProject emptyConfig inputAcme "id-1" "t1" = .ok (cfg2, proj) ∧
      cfg2.defaultProject = some inputAcme.name ∧
      (inputAcme.name ≠ "" → getDefaultProject cfg2 = .ok proj) :=
  (C5_first_add_becomes_default emptyConfig inputAcme "id-1" "t1").1 rfl

theorem findIndex?_of_find? {α : Type} {p : α → Bool} {l : List α} {a : α}
    (h : l.find? p = some a) : ∃ i, findIndex? p l = some i ∧ l[i]? = some a := by
  induction l with
  | nil => simp at h
  | cons x xs ih =>
      by_cases hx : p x
      · rw [List.find?_cons_of_pos _ hx] at h
        injection h with h
        subst h
        exact ⟨0, by simp [findIndex?, hx], by simp⟩
      · rw [List.find?_cons_of_neg _ hx] at h
        obtain ⟨i, hi, hget⟩ := ih h
        exact ⟨i + 1, by simp [findIndex?, hx, hi], by simpa using hget⟩

theorem updateProject_eq_ok {config : Config} {name : String} {u : ProjectUpdates}
    {now : String} {i : Nat}
    (hidx : findIndex? (fun p => p.name == name) config.projects = some i)
    {old : ProjectConfig} (hold : config.projects[i]? = some old) :
    updateProject config name u now =
      .ok ({ config with projects := config.projects.set i (mergeProject old u now) },
           mergeProject old u now) := by
  simp only [updateProject, hidx, hold]

theorem updateProject_eq_error {config : Config} {name : String} {u : ProjectUpdates}
    {now : String}
    (hfind : config.projects.find? (fun p => p.name == name) = none) :
    updateProject config name u now = .error ⟨"Project \"" ++ name ++ "\" not found"⟩ := by
  have hidx : findIndex? (fun p => p.name == name) config.projects = none := by
    rw [findIndex?_eq_none_iff]
    exact List.find?_eq_none.mp hfind
  simp only [updateProject, hidx]

/-- C3 counterexample: the update type admits the `updatedAt` key, and a
supplied `updatedAt` is NOT reflected in the result — the merge stamps the
current time over it — falsifying "the resulting record agrees with the
update set on every field present in it". -/
theorem C3_counterexample :
    updStale.updatedAt = some "1999-01-01T00:00:00.000Z" ∧
    ∃ cfg2 rec2,
      updateProject cfgTwo "acme" updStale "2025-06-01T00:00:00.000Z" =
        .ok (cfg2, rec2) ∧
      rec2.updatedAt = "2025-06-01T00:00:00.000Z" ∧
      rec2.updatedAt ≠ "1999-01-01T00:00:00.000Z" :=
  ⟨rfl, _, _, rfl, rfl, by decide⟩

/-- C3 (amended): `updateProject` on a present name leaves `id`, `name`,
`createdAt` of the first matching record unchanged, stamps `updatedAt` with
the current time (hence a value ≥ the previous one whenever the clock did not
run backwards), and agrees with the update set on every field present in it
other than `updatedAt`, which is overridden; absent fields are left
unchanged; a missing name yields a `ConfigError`. -/
theorem C3_updateProject_correct (config : Config) (name : String)
    (u : ProjectUpdates) (now : String) :
    (∀ old, config.projects.find? (fun p => p.name == name) = some old →
      ∃ cfg2 rec2, updateProject config name u now = .ok (cfg2, rec2) ∧
        rec2.id = old.id ∧ rec2.name = old.name ∧ rec2.createdAt = old.createdAt ∧
        rec2.updatedAt = now ∧
        (old.updatedAt ≤ now → old.updatedAt ≤ rec2.updatedAt) ∧
        (∀ v, u.environment = some v → rec2.environment = v) ∧
        (u.environment = none → rec2.environment = old.environment) ∧
        (∀ v, u.publishableKey = some v → rec2.publishableKey = v) ∧
        (u.publishableKey = none → rec2.publishableKey = old.publishableKey) ∧
        (∀ v, u.secretKey = some v → rec2.secretKey = v) ∧
        (u.secretKey = none → rec2.secretKey = old.secretKey) ∧
        (∀ v, u.webhookSecret = some v → rec2.webhookSecret = v) ∧
        (u.webhookSecret = none → rec2.webhookSecret = old.webhookSecret) ∧
        (∀ v, u.defaultCurrency = some v → rec2.defaultCurrency = v) ∧
        (u.defaultCurrency = none → rec2.defaultCurrency = old.defaultCurrency)) ∧
    (config.projects.find? (fun p => p.name == name) = none →
      ∃ e, updateProject config name u now = .error e) := by
  constructor
  · intro old hfind
    obtain ⟨i, hidx, hget⟩ := findIndex?_of_find? hfind
    refine ⟨_, _, updateProject_eq_ok hidx hget, rfl, rfl, rfl, rfl, ?_, ?_, ?_, ?_, ?_,
      ?_, ?_, ?_, ?_, ?_, ?_⟩
    · intro hle
      simpa [mergeProject] using hle
    · intro v hv; simp [mergeProject, hv]
    · intro hv; simp [mergeProject, hv]
    · intro v hv; simp [mergeProject, hv]
    · intro hv; simp [mergeProject, hv]
    · intro v hv; simp [mergeProject, hv]
    · intro hv; simp [mergeProject, hv]
    · intro v hv; simp [mergeProject, hv]
    · intro hv; simp [mergeProject, hv]
    · intro v hv; simp [mergeProject, hv]
    · intro hv; simp [mergeProject, hv]
  · intro hfind
    exact ⟨_, updateProject_eq_error hfind⟩

/-- Witness for C3 at a concrete document and update set. -/
theorem C3_updateProject_correct_witness :
    ∃ cfg2 rec2,
      updateProject cfgTwo "acme" updEur "2025-06-01T00:00:00.000Z" =
        .ok (cfg2, rec2) ∧
      rec2.id = projAcme.id ∧ rec2.name = projAcme.name ∧
      rec2.createdAt = projAcme.createdAt ∧
      rec2.updatedAt = "2025-06-01T00:00:00.000Z" ∧
      (projAcme.updatedAt ≤ "2025-06-01T00:00:00.000Z" →
        projAcme.updatedAt ≤ rec2.updatedAt) ∧
      (∀ v, updEur.environment = some v → rec2.environment = v) ∧
      (updEur.environment = none → rec2.environment = projAcme.environment) ∧
      (∀ v, updEur.publishableKey = some v → rec2.publishableKey = v) ∧
      (updEur.publishableKey = none → rec2.publishableKey = projAcme.publishableKey) ∧
      (∀ v, updEur.secretKey = some v → rec2.secretKey = v) ∧
      (updEur.secretKey = none → rec2.secretKey = projAcme.secretKey) ∧
      (∀ v, updEur.webhookSecret = some v → rec2.webhookSecret = v) ∧
      (updEur.webhookSecret = none → rec2.webhookSecret = projAcme.webhookSecret) ∧
      (∀ v, updEur.defaultCurrency = some v → rec2.defaultCurrency = v) ∧
      (updEur.defaultCurrency = none → rec2.defaultCurrency = projAcme.defaultCurrency) :=
  (C3_updateProject_correct cfgTwo "acme" updEur "2025-06-01T00:00:00.000Z").1
    projAcme (by decide)

theorem deleteProject_eq_ok {config : Config} {name : String} {i : Nat}
    (hidx : findIndex? (fun p => p.name == name) config.projects = some i) :
    deleteProject config name =
      .ok { version := config.version,
            projects := config.projects.eraseIdx i,
            defaultProject :=
              if config.defaultProject == some name then none
              else config.defaultProject } := by
  simp only [deleteProject, hidx]

theorem deleteProject_eq_error {config : Config} {name : String}
    (hnone : ∀ p ∈ config.projects, p.name ≠ name) :
    deleteProject config name = .error ⟨"Project \"" ++ name ++ "\" not found"⟩ := by
  have hidx : findIndex? (fun p => p.name == name) config.projects = none := by
    rw [findIndex?_eq_none_iff]
    intro x hx
    simpa using hnone x hx
  simp only [deleteProject, hidx]

/-- C4: `deleteProject` on a present name removes exactly that record (under
the name-uniqueness invariant no record with the name survives, and every
other record does); the default pointer is cleared iff it named the removed
record, in which case `getDefaultProject` fails afterwards; a missing name
yields a `ConfigError`. -/
theorem C4_deleteProject_correct (config : Config) (name : String) :
    ((∃ p ∈ config.projects, p.name = name) →
      ∃ cfg2, deleteProject config name = .ok cfg2 ∧
        cfg2.projects.length + 1 = config.projects.length ∧
        (∀ p ∈ cfg2.projects, p ∈ config.projects) ∧
        (∀ p ∈ config.projects, p.name ≠ name → p ∈ cfg2.projects) ∧
        (NamesUnique config → ∀ p ∈ cfg2.projects, p.name ≠ name) ∧
        (config.defaultProject = some name →
          cfg2.defaultProject = none ∧ ∃ e, getDefaultProject cfg2 = .error e) ∧
        (config.defaultProject ≠ some name →
          cfg2.defaultProject = config.defaultProject)) ∧
    ((∀ p ∈ config.projects, p.name ≠ name) →
      ∃ e, deleteProject config name = .error e) := by
  constructor
  · intro hex
    have hsome : (config.projects.find? (fun p => p.name == name)).isSome := by
      rw [List.find?_isSome]
      obtain ⟨p, hp, hpname⟩ := hex
      exact ⟨p, hp, by simp [hpname]⟩
    obtain ⟨a, hfind⟩ := Option.isSome_iff_exists.mp hsome
    obtain ⟨i, hidx, hget⟩ := findIndex?_of_find? hfind
    have haname : a.name = name := by
      have := List.find?_some hfind
      simpa using this
    have hlt : i < config.projects.length := by
      rcases List.getElem?_eq_some_iff.mp hget with ⟨h, _⟩
      exact h
    refine ⟨_, deleteProject_eq_ok hidx, ?_, ?_, ?_, ?_, ?_, ?_⟩
    · simp only [List.length_eraseIdx, hlt, if_pos]
      omega
    · intro p hp
      exact (List.eraseIdx_sublist config.projects i).mem hp
    · intro p hp hpname
      exact mem_eraseIdx_of_ne hp hget (fun he => hpname (he ▸ haname))
    · intro hnd p hp hpname
      have hnamem : name ∈ (config.projects.eraseIdx i).map ProjectConfig.name :=
        List.mem_map.mpr ⟨p, hp, hpname⟩
      rw [map_eraseIdx] at hnamem
      have hgetn : (config.projects.map ProjectConfig.name)[i]? = some name := by
        simp [hget, haname]
      exact getElem?_not_mem_eraseIdx_of_nodup hnd hgetn hnamem
    · intro hdp
      have hbeq : (config.defaultProject == some name) = true := by
        simp [hdp]
      constructor
      · simp [hbeq]
      · exact ⟨⟨"No default project set. Use setDefaultProject() to set one."⟩,
          by simp only [getDefaultProject, hbeq, if_true]⟩
    · intro hdp
      have hbeq : (config.defaultProject == some name) = false := by
        simpa [beq_eq_false_iff_ne] using hdp
      simp [hbeq]
  · intro hnone
    exact ⟨_, deleteProject_eq_error hnone⟩

/-- Witness for C4: deleting the default record of a two-record document. -/
theorem C4_deleteProject_correct_witness :
    ∃ cfg2, deleteProject cfgTwo "acme" = .ok cfg2 ∧
      cfg2.projects.length + 1 = cfgTwo.projects.length ∧
      (∀ p ∈ cfg2.projects, p ∈ cfgTwo.projects) ∧
      (∀ p ∈ cfgTwo.projects, p.name ≠ "acme" → p ∈ cfg2.projects) ∧
      (NamesUnique cfgTwo → ∀ p ∈ cfg2.projects, p.name ≠ "acme") ∧
      (cfgTwo.defaultProject = some "acme" →
        cfg2.defaultProject = none ∧ ∃ e, getDefaultProject cfg2 = .error e) ∧
      (cfgTwo.defaultProject ≠ some "acme" →
        cfg2.defaultProject = cfgTwo.defaultProject) :=
  (C4_deleteProject_correct cfgTwo "acme").1 ⟨projAcme, by simp [cfgTwo], rfl⟩

/-- C2: each of the four mutating operations, run against a stored document
satisfying both invariants, persists a document that still satisfies both:
names stay pairwise distinct and `defaultProject`, when present, names a
stored record. -/
theorem C2_invariants_preserved (config : Config) (input : ProjectInput)
    (freshId now nm : String) (u : ProjectUpdates) (h : Invariant config) :
    Invariant (runAddProject config input freshId now) ∧
    Invariant (runUpdateProject config nm u now) ∧
    Invariant (runDeleteProject config nm) ∧
    Invariant (runSetDefaultProject config nm) := by
  obtain ⟨hnd, hdv⟩ := h
  refine ⟨?_, ?_, ?_, ?_⟩
  · cases hfind : config.projects.find? (fun p => p.name == input.name) with
    | some q =>
        rw [runAddProject_error (addProject_eq_error_of_find? hfind)]
        exact ⟨hnd, hdv⟩
    | none =>
        rw [runAddProject_ok (addProject_eq_ok hfind)]
        constructor
        · show ((config.projects ++ [builtProject input freshId now]).map
            ProjectConfig.name).Nodup
          rw [List.map_append]
          refine List.Nodup.append hnd (by simp) ?_
          intro x hx hx2
          simp only [builtProject, List.map_cons, List.map_nil,
            List.mem_singleton] at hx2
          obtain ⟨p, hp, hpname⟩ := List.mem_map.mp hx
          have hne := List.find?_eq_none.mp hfind p hp
          rw [hpname, hx2] at hne
          simp at hne
        · intro d hd
          by_cases hc : ((config.projects ++ [builtProject input freshId now]).length
              == 1) = true
          · rw [if_pos hc] at hd
            injection hd with hd
            subst hd
            exact ⟨builtProject input freshId now, by simp, rfl⟩
          · rw [if_neg hc] at hd
            obtain ⟨p, hp, hpname⟩ := hdv d hd
            exact ⟨p, List.mem_append_left _ hp, hpname⟩
  · cases hidx : findIndex? (fun p => p.name == nm) config.projects with
    | none =>
        rw [runUpdateProject_error (by simp only [updateProject, hidx] :
          updateProject config nm u now = .error ⟨"Project \"" ++ nm ++ "\" not found"⟩)]
        exact ⟨hnd, hdv⟩
    | some i =>
        cases hget : config.projects[i]? with
        | none =>
            rw [runUpdateProject_error (by simp only [updateProject, hidx, hget] :
              updateProject config nm u now =
                .error ⟨"Project \"" ++ nm ++ "\" not found"⟩)]
            exact ⟨hnd, hdv⟩
        | some old =>
            rw [runUpdateProject_ok (updateProject_eq_ok hidx hget)]
            have hnames : (config.projects.set i (mergeProject old u now)).map
                ProjectConfig.name = config.projects.map ProjectConfig.name :=
              map_set_of_getElem? ProjectConfig.name hget (mergeProject old u now) rfl
            constructor
            · show ((config.projects.set i (mergeProject old u now)).map
                ProjectConfig.name).Nodup
              rw [hnames]
              exact hnd
            · intro d hd
              obtain ⟨p, hp, hpname⟩ := hdv d hd
              have hmem : d ∈ (config.projects.set i (mergeProject old u now)).map
                  ProjectConfig.name := by
                rw [hnames]
                exact List.mem_map.mpr ⟨p, hp, hpname⟩
              obtain ⟨q, hq, hqname⟩ := List.mem_map.mp hmem
              exact ⟨q, hq, hqname⟩
  · cases hidx : findIndex? (fun p => p.name == nm) config.projects with
    | none =>
        rw [runDeleteProject_error (by simp only [deleteProject, hidx] :
          deleteProject config nm = .error ⟨"Project \"" ++ nm ++ "\" not found"⟩)]
        exact ⟨hnd, hdv⟩
    | some i =>
        rw [runDeleteProject_ok (deleteProject_eq_ok hidx)]
        obtain ⟨a, hget, hpa⟩ := findIndex?_some hidx
        have haname : a.name = nm := by simpa using hpa
        constructor
        · show ((config.projects.eraseIdx i).map ProjectConfig.name).Nodup
          exact List.Nodup.sublist
            ((List.eraseIdx_sublist config.projects i).map ProjectConfig.name) hnd
        · intro d hd
          by_cases hb : (config.defaultProject == some nm) = true
          · rw [if_pos hb] at hd
            cases hd
          · rw [if_neg hb] at hd
            have hd2 : config.defaultProject = some d := hd
            have hdne : d ≠ nm := by
              intro he
              subst he
              exact hb (by simp [hd2])
            obtain ⟨p, hp, hpname⟩ := hdv d hd2
            refine ⟨p, ?_, hpname⟩
            exact mem_eraseIdx_of_ne hp hget
              (fun hpe => hdne (by rw [← hpname, hpe]; exact haname))
  · cases hfind : config.projects.find? (fun p => p.name == nm) with
    | none =>
        rw [runSetDefaultProject_error (setDefaultProject_eq_error hfind)]
        exact ⟨hnd, hdv⟩
    | some q =>
        rw [runSetDefaultProject_ok (setDefaultProject_eq_ok hfind)]
        refine ⟨hnd, ?_⟩
        intro d hd
        injection hd with hd
        subst hd
        refine ⟨q, List.mem_of_find?_eq_some hfind, ?_⟩
        simpa using List.find?_some hfind

/-- Witness for C2 at a concrete invariant-satisfying document. -/
theorem C2_invariants_preserved_witness :
    Invariant (runAddProject cfgNoDefault inputBeta "id-7" "t7") ∧
    Invariant (runUpdateProject cfgNoDefault "acme" updEur "t7") ∧
    Invariant (runDeleteProject cfgNoDefault "acme") ∧
    Invariant (runSetDefaultProject cfgNoDefault "acme") :=
  C2_invariants_preserved cfgNoDefault inputBeta "id-7" "t7" "acme" updEur
    ⟨by unfold NamesUnique; decide, fun d hd => Option.noConfusion hd⟩

/-- C6: failing operations are atomic: a duplicate-name `addProject` and a
missing-name `setDefaultProject` fail with a `ConfigError` and leave the
stored document (and in particular `defaultProject`) unchanged; more
generally, every operation that fails leaves the stored document exactly as
it was. -/
theorem C6_failed_ops_atomic (config : Config) (input : ProjectInput)
    (freshId now nm : String) (u : ProjectUpdates) :
    ((∃ p ∈ config.projects, p.name = input.name) →
      (∃ e, addProject config input freshId now = .error e) ∧
      runAddProject config input freshId now = config) ∧
    ((∀ p ∈ config.projects, p.name ≠ nm) →
      (∃ e, setDefaultProject config nm = .error e) ∧
      runSetDefaultProject config nm = config ∧
      (runSetDefaultProject config nm).defaultProject = config.defaultProject) ∧
    (∀ e, addProject config input freshId now = .error e →
      runAddProject config input freshId now = config) ∧
    (∀ e, updateProject config nm u now = .error e →
      runUpdateProject config nm u now = config) ∧
    (∀ e, deleteProject config nm = .error e →
      runDeleteProject config nm = config) ∧
    (∀ e, setDefaultProject config nm = .error e →
      runSetDefaultProject config nm = config) := by
  refine ⟨?_, ?_, fun e he => runAddProject_error he,
    fun e he => runUpdateProject_error he, fun e he => runDeleteProject_error he,
    fun e he => runSetDefaultProject_error he⟩
  · intro hex
    obtain ⟨e, he⟩ := addProject_eq_error hex
    exact ⟨⟨e, he⟩, runAddProject_error he⟩
  · intro hnone
    have hfind : config.projects.find? (fun p => p.name == nm) = none := by
      rw [List.find?_eq_none]
      intro x hx
      simpa using hnone x hx
    have he := setDefaultProject_eq_error hfind
    exact ⟨⟨_, he⟩, runSetDefaultProject_error he, by rw [runSetDefaultProject_error he]⟩

/-- Witness for C6: duplicate add of `acme` and `setDefaultProject "ghost"`
against a concrete two-record document. -/
theorem C6_failed_ops_atomic_witness :
    ((∃ e, addProject cfgTwo inputAcme "id-6" "t6" = .error e) ∧
      runAddProject cfgTwo inputAcme "id-6" "t6" = cfgTwo) ∧
    ((∃ e, setDefaultProject cfgTwo "ghost" = .error e) ∧
      runSetDefaultProject cfgTwo "ghost" = cfgTwo ∧
      (runSetDefaultProject cfgTwo "ghost").defaultProject = cfgTwo.defaultProject) :=
  ⟨(C6_failed_ops_atomic cfgTwo inputAcme "id-6" "t6" "ghost" updEur).1
      ⟨projAcme, by simp [cfgTwo], rfl⟩,
    (C6_failed_ops_atomic cfgTwo inputAcme "id-6" "t6" "ghost" updEur).2.1
      (by decide)⟩

/-- C7: `loadConfig` on a missing file returns the empty default document
(fixed schema version, no projects, no default); invalid JSON yields a
`ConfigError` whose message names the config path; any other read failure
yields a `ConfigError` wrapping the underlying message. -/
theorem C7_loadConfig_errors (jsonParse : String → Option Config)
    (configPath data msg : String) :
    loadConfig jsonParse configPath .enoent =
      .ok { version := CONFIG_VERSION, projects := [], defaultProject := none } ∧
    (jsonParse data = none →
      loadConfig jsonParse configPath (.success data) =
        .error ⟨"Invalid JSON in config file: " ++ configPath⟩) ∧
    loadConfig jsonParse configPath (.failure msg) =
      .error ⟨"Failed to load config: " ++ msg⟩ := by
  refine ⟨rfl, ?_, rfl⟩
  intro hp
  simp only [loadConfig, hp]

/-- Witness for C7 with a parse function rejecting every input. -/
theorem C7_loadConfig_errors_witness :
    loadConfig (fun _ => none) "/home/u/.config/stripeconf/config.json" .enoent =
      .ok { version := CONFIG_VERSION, projects := [], defaultProject := none } ∧
    loadConfig (fun _ => none) "/home/u/.config/stripeconf/config.json"
      (.success "\x7bnot json") =
      .error ⟨"Invalid JSON in config file: " ++ "/home/u/.config/stripeconf/config.json"⟩ ∧
    loadConfig (fun _ => none) "/home/u/.config/stripeconf/config.json"
      (.failure "EACCES: permission denied") =
      .error ⟨"Failed to load config: " ++ "EACCES: permission denied"⟩ :=
  ⟨(C7_loadConfig_errors (fun _ => none) "/home/u/.config/stripeconf/config.json"
      "\x7bnot json" "EACCES: permission denied").1,
   (C7_loadConfig_errors (fun _ => none) "/home/u/.config/stripeconf/config.json"
      "\x7bnot json" "EACCES: permission denied").2.1 rfl,
   (C7_loadConfig_errors (fun _ => none) "/home/u/.config/stripeconf/config.json"
      "\x7bnot json" "EACCES: permission denied").2.2⟩

/-- C8: for a file previously written by `saveConfig` (content
`saveConfig c`), loading and saving again writes byte-identical content;
the serializer is a fixed function of the document, so key ordering is
stable.  The hypothesis states that the external `JSON.parse` inverts the
serializer on this document. -/
theorem C8_save_load_round_trip (jsonParse : String → Option Config)
    (configPath : String) (c : Config)
    (h : jsonParse (saveConfig c) = some c) :
    loadThenSave jsonParse configPath (saveConfig c) = .ok (saveConfig c) := by
  simp only [loadThenSave, loadConfig, saveConfig] at h ⊢
  rw [h]

/-- Witness for C8 on a concrete two-record document. -/
theorem C8_save_load_round_trip_witness :
    parseCfgTwo (saveConfig cfgTwo) = some cfgTwo ∧
    loadThenSave parseCfgTwo "/tmp/config.json" (saveConfig cfgTwo) =
      .ok (saveConfig cfgTwo) :=
  have h : parseCfgTwo (saveConfig cfgTwo) = some cfgTwo := by
    simp [parseCfgTwo, saveConfig]
  ⟨h, C8_save_load_round_trip parseCfgTwo "/tmp/config.json" cfgTwo h⟩

/-- C10: `loadConfig` performs no schema or invariant validation: any
successfully parsed document is returned exactly as parsed — in particular
`badConfig`, which has duplicate record names and a `defaultProject` naming
no record, is accepted unchanged. -/
theorem C10_load_no_validation (jsonParse : String → Option Config)
    (configPath data : String) (c : Config) :
    (jsonParse data = some c →
      loadConfig jsonParse configPath (.success data) = .ok c) ∧
    ¬ NamesUnique badConfig ∧ ¬ DefaultValid badConfig := by
  refine ⟨?_, ?_, ?_⟩
  · intro hp
    simp only [loadConfig, hp]
  · unfold NamesUnique
    decide
  · intro hdv
    obtain ⟨p, hp, hpname⟩ := hdv "ghost" rfl
    have hpa : p = projAcme := by
      simpa [badConfig] using hp
    rw [hpa] at hpname
    exact absurd hpname (by decide)

/-- Witness for C10: a parse function producing the invariant-violating
document; `loadConfig` returns it as-is. -/
theorem C10_load_no_validation_witness :
    loadConfig parseBadConfig "/tmp/config.json" (.success "anything") =
      .ok badConfig ∧
    ¬ NamesUnique badConfig ∧ ¬ DefaultValid badConfig :=
  ⟨(C10_load_no_validation parseBadConfig "/tmp/config.json" "anything" badConfig).1 rfl,
   (C10_load_no_validation parseBadConfig "/tmp/config.json" "anything" badConfig).2⟩

end StripeConf
